import Mathlib

/-!
Verification development for the voxmaster-ai voice biometric backend.

The definitions below are shallow embeddings of the Python services:
* `app/services/scoring.py`        — perceptual scoring (exact rational arithmetic),
* `app/services/preprocessing.py`  — loudness normalization and energy VAD,
* `app/services/embeddings.py`     — similarity, aggregation (real arithmetic),
* `app/routers/biometrics.py`      — the 1:N verification decision loop.

Python floats are modelled as exact numbers (`ℚ` where the code is pure
arithmetic, `ℝ` where `sqrt` and powers appear); numpy vectors of fixed
length `n` are modelled as `Fin n → ℝ`.  External library calls
(`librosa.load`, `librosa.feature.rms`) are taken as inputs at the model
boundary; everything after them follows the source line by line.
-/

/-- `np.clip(x, lo, hi)` — `min (max x lo) hi`, matching numpy's behaviour. -/
def clip {α : Type} [LinearOrder α] (x lo hi : α) : α := min (max x lo) hi

/-- Audio category, `app/models/schemas.py` `AudioType`. -/
inductive AudioType
  | spoken
  | sung
deriving DecidableEq, Repr

/-- `AcousticFeatures` from `app/models/schemas.py`: the feature record consumed
by the scoring service.  `formants` is the `Dict[str, float]`, modelled as a
partial map; `jitter`/`shimmer` are `Optional[float]`. -/
structure AcousticFeatures where
  spectral_centroid : ℚ
  spectral_rolloff : Option ℚ
  hnr : ℚ
  cpp : ℚ
  h1_h2 : ℚ
  f0_mean : ℚ
  f0_range : List ℚ
  formants : String → Option ℚ
  mfccs : Option (List ℚ)
  jitter : Option ℚ
  shimmer : Option ℚ

/-- `TimbreScores` record. -/
structure TimbreScores where
  brightness : ℚ
  breathiness : ℚ
  warmth : ℚ
  roughness : ℚ

/-- `WeightScores` record. -/
structure WeightScores where
  weight : ℚ
  pressed : ℚ

/-- `PlacementScores` record. -/
structure PlacementScores where
  forwardness : ℚ
  ring_index : ℚ
  nasality : ℚ

/-- `SweetSpotScore` record. -/
structure SweetSpotScore where
  clarity : ℚ
  warmth : ℚ
  presence : ℚ
  smoothness : ℚ
  harshness_penalty : ℚ
  total : ℚ

/-- Python's `x or d` on an `Optional[float]`: `None` and `0.0` are falsy and
fall back to the default, any other number is returned unchanged.  This is the
idiom used for the `jitter`/`shimmer` fallbacks in `calculate_timbre_scores`. -/
def pyOrFloat (x : Option ℚ) (d : ℚ) : ℚ :=
  match x with
  | none => d
  | some v => if v = 0 then d else v

/-- `normalize_to_100` from `app/services/scoring.py` (lines 233-238):
degenerate bounds return `50.0`, otherwise `(v-lo)/(hi-lo)*100` clipped to
`[0,100]`. -/
def normalize_to_100 (value min_val max_val : ℚ) : ℚ :=
  if max_val = min_val then 50
  else clip ((value - min_val) / (max_val - min_val) * 100) 0 100

/-- `calculate_timbre_scores` from `app/services/scoring.py` (lines 59-102). -/
def calculate_timbre_scores (features : AcousticFeatures) : TimbreScores :=
  let brightness := normalize_to_100 features.spectral_centroid 1000 4000
  let breathiness := 100 - normalize_to_100 features.hnr 5 30
  let warmth := clip (100 - brightness * 0.6 + 30) 0 100
  let jitter_contrib := (pyOrFloat features.jitter 0.5) * 10
  let shimmer_contrib := (pyOrFloat features.shimmer 3.0) * 3
  let roughness := clip (jitter_contrib + shimmer_contrib) 0 100
  ⟨brightness, breathiness, warmth, roughness⟩

/-- `calculate_weight_scores` from `app/services/scoring.py` (lines 105-134). -/
def calculate_weight_scores (features : AcousticFeatures) : WeightScores :=
  let cpp_score := normalize_to_100 features.cpp 5 20
  let h1_h2_score := 100 - normalize_to_100 features.h1_h2 (-5) 15
  let weight := cpp_score * 0.6 + h1_h2_score * 0.4
  let pressed := 100 - normalize_to_100 features.h1_h2 (-5) 15
  ⟨clip weight 0 100, clip pressed 0 100⟩

/-- `calculate_placement_scores` from `app/services/scoring.py`
(lines 137-175).  `audio_type` is a parameter of the source function but is
unused in its body. -/
def calculate_placement_scores (features : AcousticFeatures)
    (audio_type : AudioType) : PlacementScores :=
  let f1 := (features.formants "f1").getD 500
  let f2 := (features.formants "f2").getD 1500
  let f3 := (features.formants "f3").getD 2500
  let f2_f1_ratio := if f1 > 0 then f2 / f1 else 3.0
  let forwardness := normalize_to_100 f2_f1_ratio 2.0 4.0 * 0.5
      + normalize_to_100 features.spectral_centroid 1500 3500 * 0.5
  let ring_distance := |f3 - 3000|
  let ring_index := 100 - normalize_to_100 ring_distance 0 1500
  let f1_f2_spacing := f2 - f1
  let nasality := 100 - normalize_to_100 f1_f2_spacing 500 1500
  ⟨clip forwardness 0 100, clip ring_index 0 100, clip nasality 0 100⟩

/-- `calculate_sweet_spot` from `app/services/scoring.py` (lines 178-230).
`weight` is passed by the source but unused in its body. -/
def calculate_sweet_spot (timbre : TimbreScores) (weight : WeightScores)
    (placement : PlacementScores) (features : AcousticFeatures) : SweetSpotScore :=
  let clarity := clip (normalize_to_100 features.hnr 10 25 * 0.7
      + (100 - timbre.breathiness) * 0.3) 0 100
  let warmth := timbre.warmth
  let presence := placement.forwardness * 0.6 + placement.ring_index * 0.4
  let smoothness := 100 - timbre.roughness
  let harshness := clip
      ((if timbre.brightness > 80 then (timbre.brightness - 80) * 0.5 else 0)
        + timbre.roughness * 0.3) 0 100
  let total := 0.25 * clarity + 0.20 * warmth + 0.20 * presence
      + 0.15 * smoothness + 0.20 * (100 - harshness)
  ⟨clarity, warmth, presence, smoothness, harshness, clip total 0 100⟩

/-- `calculate_scores` from `app/services/scoring.py` (lines 24-56): the four
sub-records computed from one feature vector. -/
def calculate_scores (features : AcousticFeatures) (audio_type : AudioType) :
    TimbreScores × WeightScores × PlacementScores × SweetSpotScore :=
  let timbre := calculate_timbre_scores features
  let weight := calculate_weight_scores features
  let placement := calculate_placement_scores features audio_type
  let sweet_spot := calculate_sweet_spot timbre weight placement features
  (timbre, weight, placement, sweet_spot)

/-- The SweetSpot record produced for a feature vector by the full scoring
pipeline `calculate_scores`. -/
def sweetSpotOf (features : AcousticFeatures) (audio_type : AudioType) : SweetSpotScore :=
  (calculate_scores features audio_type).2.2.2

/-- A concrete feature record whose jitter and shimmer are present but zero. -/
def featuresZeroJitter : AcousticFeatures :=
  { spectral_centroid := 2000
    spectral_rolloff := none
    hnr := 15
    cpp := 10
    h1_h2 := 5
    f0_mean := 120
    f0_range := [100, 140]
    formants := fun _ => none
    mfccs := none
    jitter := some 0
    shimmer := some 0 }

/-- A concrete feature record with nonzero jitter and shimmer. -/
def featuresSmallJitter : AcousticFeatures :=
  { spectral_centroid := 2000
    spectral_rolloff := none
    hnr := 15
    cpp := 10
    h1_h2 := 5
    f0_mean := 120
    f0_range := [100, 140]
    formants := fun _ => none
    mfccs := none
    jitter := some 1
    shimmer := some 2 }

/-- Running state of the frame-merging loop in `detect_voiced_segments`
(`app/services/preprocessing.py`, lines 131-149): accumulated segments, the
`in_voiced` flag and the `start_frame` index. -/
structure VadState (α : Type) where
  segments : List (α × α)
  inVoiced : Bool
  startFrame : ℕ

/-- `librosa.frames_to_time(frame, sr=sr, hop_length=hop)` — `frame * hop / sr`. -/
def framesToTime {α : Type} [DivisionRing α] (frame sr hop : ℕ) : α :=
  ((frame * hop : ℕ) : α) / (sr : α)

/-- One iteration of the `for i, is_voiced in enumerate(voiced)` loop of
`detect_voiced_segments`: open a segment on a rising edge, close it (and
convert frames to seconds) on a falling edge. -/
def vadStep {α : Type} [LinearOrderedField α] (sr : ℕ) (st : VadState α)
    (p : ℕ × Bool) : VadState α :=
  if p.2 && !st.inVoiced then
    { st with inVoiced := true, startFrame := p.1 }
  else if !p.2 && st.inVoiced then
    { segments := st.segments
        ++ [(framesToTime st.startFrame sr 512, framesToTime p.1 sr 512)]
      inVoiced := false
      startFrame := st.startFrame }
  else st

/-- `detect_voiced_segments` from `app/services/preprocessing.py`
(lines 111-154).  The per-frame RMS energies are produced by
`librosa.feature.rms` (external library), so they are an input of the model
together with the sample count `audioLen`; the thresholding, the merging loop,
the final open segment and the full-duration fallback follow the source. -/
def detect_voiced_segments {α : Type} [LinearOrderedField α] (rms : List α)
    (audioLen sr : ℕ) (threshold : α) : List (α × α) :=
  let voiced := rms.map (fun r => decide (r > threshold))
  let st := voiced.enum.foldl (vadStep sr) ⟨[], false, 0⟩
  let segments :=
    if st.inVoiced then
      st.segments ++ [(framesToTime st.startFrame sr 512, (audioLen : α) / (sr : α))]
    else st.segments
  if segments.isEmpty then [(0, (audioLen : α) / (sr : α))] else segments

noncomputable section

/-- `normalize_loudness` from `app/services/preprocessing.py` (lines 94-101):
RMS-normalize towards `10^(target_db/20)` when the signal has positive RMS,
then clip every sample to `[-1, 1]`. -/
def normalize_loudness (audio : List ℝ) (target_db : ℝ) : List ℝ :=
  let rms := Real.sqrt ((audio.map (fun x => x ^ 2)).sum / (audio.length : ℝ))
  let scaled :=
    if rms > 0 then
      let target_rms : ℝ := (10 : ℝ) ^ (target_db / 20)
      audio.map (fun x => x * (target_rms / rms))
    else audio
  scaled.map (fun x => clip x (-1) 1)

/-- `reduce_noise` from `app/services/preprocessing.py` (lines 104-108): the
noise-reduction step is a declared no-op. -/
def reduce_noise (audio : List ℝ) (sr : ℕ) : List ℝ := audio

/-- `isolate_vocals_if_needed` from `app/services/preprocessing.py`
(lines 157-165): the vocal-isolation extension point is a declared no-op. -/
def isolate_vocals_if_needed (audio : List ℝ) (sr : ℕ) : List ℝ := audio

/-- The `InvalidAudioError` named by the specification.  No such error class
exists anywhere in the source; it appears here only so that the failure
behaviour the spec asserts for `preprocess_audio` can be stated. -/
inductive InvalidAudioError
  | invalid
deriving DecidableEq, Repr

/-- `PreprocessedAudio` dataclass from `app/services/preprocessing.py`. -/
structure PreprocessedAudio where
  audio : List ℝ
  sample_rate : ℕ
  duration : ℝ
  voiced_segments : List (ℝ × ℝ)
  audio_type : AudioType

/-- `preprocess_audio` from `app/services/preprocessing.py` (lines 29-91),
modelled from the point after `librosa.load` (the external loader): `loaded`
is the decoded sample list and `rmsFrames` the frame energies that
`librosa.feature.rms` computes for the VAD.  The body normalizes loudness,
applies the no-op noise reduction, detects voiced segments (threshold 0.02),
applies the no-op vocal isolation for sung audio, and returns a
`PreprocessedAudio`; no code path raises an error. -/
def preprocess_audio (loaded rmsFrames : List ℝ) (audio_type : AudioType)
    (target_sr : ℕ) : Except InvalidAudioError PreprocessedAudio :=
  let audio := normalize_loudness loaded (-23)
  let audio2 := reduce_noise audio target_sr
  let voiced_segments := detect_voiced_segments rmsFrames audio2.length target_sr 0.02
  let audio3 :=
    match audio_type with
    | AudioType.sung => isolate_vocals_if_needed audio2 target_sr
    | AudioType.spoken => audio2
  let duration := (audio3.length : ℝ) / (target_sr : ℝ)
  Except.ok ⟨audio3, target_sr, duration, voiced_segments, audio_type⟩

/-- Similarity metric selector of `compute_similarity`
(`app/services/embeddings.py`); the source dispatches on the strings
`"cosine"` and `"euclidean"` and raises on anything else. -/
inductive Metric
  | cosine
  | euclidean
deriving DecidableEq, Repr

/-- `compute_similarity` from `app/services/embeddings.py` (lines 141-180).
For the cosine metric: the raw cosine when both norms are positive, `0`
otherwise, then rescaled by `(sim + 1) * 50`.  Embeddings are numpy vectors of
one common length, modelled as `Fin n → ℝ`. -/
def compute_similarity {n : ℕ} (embedding1 embedding2 : Fin n → ℝ)
    (metric : Metric) : ℝ :=
  match metric with
  | Metric.cosine =>
    let dot_product := ∑ i, embedding1 i * embedding2 i
    let norm1 := Real.sqrt (∑ i, embedding1 i ^ 2)
    let norm2 := Real.sqrt (∑ i, embedding2 i ^ 2)
    let similarity := if norm1 > 0 ∧ norm2 > 0 then dot_product / (norm1 * norm2) else 0
    (similarity + 1) * 50
  | Metric.euclidean =>
    let distance := Real.sqrt (∑ i, (embedding1 i - embedding2 i) ^ 2)
    max 0 (100 - distance * 50)

/-- Aggregation method selector of `aggregate_embeddings`; the source
dispatches on `"mean"` and `"median"` and falls back to the mean for any
other string (such as `"weighted"`). -/
inductive AggMethod
  | mean
  | median
  | weighted
deriving DecidableEq, Repr

/-- Sorting with non-strict `≤`, as `np.median` does internally. -/
def sortReal (l : List ℝ) : List ℝ :=
  l.mergeSort

/-- `np.median` of a one-dimensional array: middle element of the sorted data
for odd length, average of the two middle elements for even length. -/
def npMedian (l : List ℝ) : ℝ :=
  let s := sortReal l
  if l.length % 2 = 1 then s.getD (l.length / 2) 0
  else (s.getD (l.length / 2 - 1) 0 + s.getD (l.length / 2) 0) / 2

/-- The `centroid` computed inside `aggregate_embeddings`
(`app/services/embeddings.py`, lines 201-208): coordinatewise `np.mean` for
`"mean"`, coordinatewise `np.median` for `"median"`, and the `else` branch
(any other method string, e.g. `"weighted"`) falls back to the mean. -/
def centroidOf {n : ℕ} (embeddings : List (Fin n → ℝ)) (method : AggMethod) :
    Fin n → ℝ :=
  match method with
  | AggMethod.mean => fun i => (embeddings.map (fun e => e i)).sum / (embeddings.length : ℝ)
  | AggMethod.median => fun i => npMedian (embeddings.map (fun e => e i))
  | AggMethod.weighted => fun i => (embeddings.map (fun e => e i)).sum / (embeddings.length : ℝ)

/-- `aggregate_embeddings` from `app/services/embeddings.py` (lines 183-213):
empty input raises `ValueError("No embeddings provided")`; otherwise the
centroid divided by `np.linalg.norm(centroid) + 1e-8`. -/
def aggregate_embeddings {n : ℕ} (embeddings : List (Fin n → ℝ))
    (method : AggMethod) : Except String (Fin n → ℝ) :=
  match embeddings with
  | [] => Except.error "No embeddings provided"
  | _ =>
    Except.ok (fun i => centroidOf embeddings method i
      / (Real.sqrt (∑ j, centroidOf embeddings method j ^ 2) + 1e-8))

/-- A stored voice signature as the verification loop in
`app/routers/biometrics.py` sees it: an id and the optional stored centroid
embedding (`full_sig.get('embedding')`). -/
structure VoiceSignature (n : ℕ) where
  id : ℕ
  embedding : Option (Fin n → ℝ)

/-- The verification response assembled by `verify_identity`
(`app/routers/biometrics.py`, lines 159-176). -/
structure VerificationResult (n : ℕ) where
  is_match : Bool
  confidence : ℝ
  matched_signature : Option (VoiceSignature n)

/-- One iteration of the 1:N candidate loop of `verify_identity`
(`app/routers/biometrics.py`, lines 151-157): skip signatures without an
embedding, otherwise compute the cosine similarity and keep the candidate on
strict improvement of `best_confidence`. -/
def verifyStep {n : ℕ} (test_embedding : Fin n → ℝ)
    (st : ℝ × Option (VoiceSignature n)) (sig : VoiceSignature n) :
    ℝ × Option (VoiceSignature n) :=
  match sig.embedding with
  | none => st
  | some emb =>
    let confidence := compute_similarity test_embedding emb Metric.cosine
    if st.1 < confidence then (confidence, some sig) else st

/-- `verify_identity` decision logic from `app/routers/biometrics.py`
(lines 137-176): fold the candidate loop from `best_confidence = 0.0`,
`matched_signature = None`, then `is_match = best_confidence >= 70.0 and
matched_signature is not None`. -/
def verify_identity {n : ℕ} (test_embedding : Fin n → ℝ)
    (signatures : List (VoiceSignature n)) : VerificationResult n :=
  let st := signatures.foldl (verifyStep test_embedding) (0, none)
  { is_match := if (70 : ℝ) ≤ st.1 then st.2.isSome else false
    confidence := st.1
    matched_signature := st.2 }

end

-- helper lemmas about `clip`

theorem le_clip {α : Type} [LinearOrder α] (x : α) {lo hi : α} (h : lo ≤ hi) :
    lo ≤ clip x lo hi :=
  le_min (le_max_right _ _) h

theorem clip_le {α : Type} [LinearOrder α] (x lo hi : α) : clip x lo hi ≤ hi :=
  min_le_right _ _

theorem clip_mono {α : Type} [LinearOrder α] {x y : α} (lo hi : α) (h : x ≤ y) :
    clip x lo hi ≤ clip y lo hi :=
  min_le_min (max_le_max h le_rfl) le_rfl

theorem clip_eq_self {α : Type} [LinearOrder α] {x lo hi : α} (h1 : lo ≤ x)
    (h2 : x ≤ hi) : clip x lo hi = x := by
  unfold clip
  rw [max_eq_left h1, min_eq_left h2]

/-- C10: with degenerate bounds (`lo = hi`), `normalize_to_100` returns `50`
without taking the division branch; normalization is total. -/
theorem C10_normalize_degenerate (value min_val max_val : ℚ)
    (h : min_val = max_val) : normalize_to_100 value min_val max_val = 50 := by
  subst h
  simp [normalize_to_100]

/-- C10 witness: `normalize_to_100 7 3 3 = 50`. -/
theorem C10_normalize_degenerate_witness : normalize_to_100 7 3 3 = 50 :=
  C10_normalize_degenerate 7 3 3 rfl

/-- C4 counterexample: the claim asserts `normalize(lo, lo, hi) = 0` for every
`lo, hi`, but at `lo = hi = 0` the code returns `50`. -/
theorem C4_normalize_counterexample :
    normalize_to_100 0 0 0 = 50 ∧ normalize_to_100 0 0 0 ≠ 0 := by
  constructor <;> decide

/-- C4 (amended): for `lo < hi`, `normalize_to_100` is monotone non-decreasing
in `v`, maps `lo` to `0` and `hi` to `100`; and for arbitrary bounds its output
always lies in `[0, 100]`. -/
theorem C4_normalize_amended (lo hi : ℚ) (h : lo < hi) :
    (∀ v w : ℚ, v ≤ w → normalize_to_100 v lo hi ≤ normalize_to_100 w lo hi) ∧
    normalize_to_100 lo lo hi = 0 ∧
    normalize_to_100 hi lo hi = 100 ∧
    (∀ v lo2 hi2 : ℚ, 0 ≤ normalize_to_100 v lo2 hi2 ∧ normalize_to_100 v lo2 hi2 ≤ 100) := by
  have hne : hi ≠ lo := ne_of_gt h
  have hpos : 0 < hi - lo := sub_pos.mpr h
  refine ⟨?_, ?_, ?_, ?_⟩
  · intro v w hvw
    simp only [normalize_to_100, if_neg hne]
    refine clip_mono 0 100 ?_
    have h1 : (v - lo) / (hi - lo) ≤ (w - lo) / (hi - lo) := by gcongr
    exact mul_le_mul_of_nonneg_right h1 (by norm_num)
  · simp only [normalize_to_100, if_neg hne, sub_self, zero_div, zero_mul]
    norm_num [clip]
  · have hd : hi - lo ≠ 0 := ne_of_gt hpos
    simp only [normalize_to_100, if_neg hne, div_self hd, one_mul]
    norm_num [clip]
  · intro v lo2 hi2
    by_cases h2 : hi2 = lo2
    · simp only [normalize_to_100, if_pos h2]
      norm_num
    · simp only [normalize_to_100, if_neg h2]
      exact ⟨le_clip _ (by norm_num), clip_le _ _ _⟩

/-- C4 witness: instantiating the amended statement at `lo = 0`, `hi = 100`. -/
theorem C4_normalize_amended_witness :
    normalize_to_100 0 0 100 = 0 ∧ normalize_to_100 100 0 100 = 100 ∧
    normalize_to_100 30 0 100 ≤ normalize_to_100 60 0 100 ∧
    0 ≤ normalize_to_100 (-5) 0 100 :=
  ⟨(C4_normalize_amended 0 100 (by norm_num)).2.1,
   (C4_normalize_amended 0 100 (by norm_num)).2.2.1,
   (C4_normalize_amended 0 100 (by norm_num)).1 30 60 (by norm_num),
   ((C4_normalize_amended 0 100 (by norm_num)).2.2.2 (-5) 0 100).1⟩

/-- C3 counterexample: with jitter and shimmer both present and equal to `0`,
Python's `or`-fallback substitutes the defaults `0.5` and `3.0`, so the
Roughness score is `14`, not `clamp(10·0 + 3·0, 0, 100) = 0`. -/
theorem C3_roughness_counterexample :
    (calculate_timbre_scores featuresZeroJitter).roughness = 14 ∧
    (calculate_timbre_scores featuresZeroJitter).roughness ≠ clip (10 * 0 + 3 * 0) 0 100 := by
  have h : (calculate_timbre_scores featuresZeroJitter).roughness = 14 := by
    simp only [calculate_timbre_scores, featuresZeroJitter, pyOrFloat]
    norm_num
    rw [clip_eq_self (by norm_num) (by norm_num)]
  refine ⟨h, ?_⟩
  rw [h, show (10 * 0 + 3 * 0 : ℚ) = 0 by norm_num,
    clip_eq_self (le_refl (0 : ℚ)) (by norm_num)]
  norm_num

/-- C3 (amended): whenever the jitter and shimmer fields are present AND
nonzero, the Roughness score equals `clamp(10·jitter + 3·shimmer, 0, 100)`. -/
theorem C3_roughness_amended (f : AcousticFeatures) (j s : ℚ)
    (hj : f.jitter = some j) (hj0 : j ≠ 0)
    (hs : f.shimmer = some s) (hs0 : s ≠ 0) :
    (calculate_timbre_scores f).roughness = clip (10 * j + 3 * s) 0 100 := by
  simp only [calculate_timbre_scores, pyOrFloat, hj, hs, if_neg hj0, if_neg hs0]
  congr 1
  ring

/-- C3 witness: jitter `1`, shimmer `2` give Roughness `clamp(16) = 16`. -/
theorem C3_roughness_amended_witness :
    (calculate_timbre_scores featuresSmallJitter).roughness = clip (10 * 1 + 3 * 2) 0 100 :=
  C3_roughness_amended featuresSmallJitter 1 2 rfl (by norm_num) rfl (by norm_num)

/-- C5: for every feature vector and category, the SweetSpot total equals
`0.25·Clarity + 0.20·Warmth + 0.20·Presence + 0.15·Smoothness +
0.20·(100 − Harshness)` clamped to `[0,100]`, hence always lies in `[0,100]`. -/
theorem C5_sweet_spot_total (f : AcousticFeatures) (t : AudioType) :
    (sweetSpotOf f t).total =
      clip (0.25 * (sweetSpotOf f t).clarity + 0.20 * (sweetSpotOf f t).warmth
        + 0.20 * (sweetSpotOf f t).presence + 0.15 * (sweetSpotOf f t).smoothness
        + 0.20 * (100 - (sweetSpotOf f t).harshness_penalty)) 0 100 ∧
    0 ≤ (sweetSpotOf f t).total ∧ (sweetSpotOf f t).total ≤ 100 := by
  refine ⟨rfl, ?_, ?_⟩
  · exact le_clip _ (by norm_num)
  · exact clip_le _ _ _

-- Python's `segments if segments else [fallback]` never yields an empty list

theorem ite_isEmpty_ne_nil {β : Type} (l : List β) (x : β) :
    (if l.isEmpty then [x] else l) ≠ [] := by
  split
  · exact List.cons_ne_nil _ _
  · next hc =>
      intro heq
      exact hc (by rw [heq]; rfl)

-- the VAD frame loop leaves the state untouched while every frame is unvoiced

theorem vad_foldl_unvoiced {α : Type} [LinearOrderedField α] (sr : ℕ)
    (bl : List Bool) (h : ∀ b ∈ bl, b = false) :
    ∀ (k : ℕ) (st : VadState α), st.inVoiced = false →
      (bl.enumFrom k).foldl (vadStep sr) st = st := by
  induction bl with
  | nil => intro k st _; simp
  | cons b t ih =>
    intro k st hst
    have hb : b = false := h b (List.mem_cons_self _ _)
    have hstep : vadStep sr st (k, b) = st := by
      simp [vadStep, hb, hst]
    rw [List.enumFrom_cons, List.foldl_cons, hstep]
    exact ih (fun q hq => h q (List.mem_cons_of_mem _ hq)) (k + 1) st hst

/-- C8: the energy VAD never returns an empty segment list, and when no
frame's RMS energy exceeds the threshold it returns exactly one segment
spanning the full duration `(0, audioLen / sr)`. -/
theorem C8_detect_voiced_segments (rms : List ℚ) (audioLen sr : ℕ) (threshold : ℚ) :
    detect_voiced_segments rms audioLen sr threshold ≠ [] ∧
    ((∀ r ∈ rms, r ≤ threshold) →
      detect_voiced_segments rms audioLen sr threshold
        = [(0, (audioLen : ℚ) / (sr : ℚ))]) := by
  constructor
  · simp only [detect_voiced_segments]
    exact ite_isEmpty_ne_nil _ _
  · intro hall
    have hv : ∀ b ∈ rms.map (fun r => decide (r > threshold)), b = false := by
      intro b hb
      obtain ⟨r, hr, rfl⟩ := List.mem_map.mp hb
      simpa using not_lt.mpr (hall r hr)
    have hfold := vad_foldl_unvoiced (α := ℚ) sr
      (rms.map (fun r => decide (r > threshold))) hv 0 ⟨[], false, 0⟩ rfl
    simp only [detect_voiced_segments, List.enum, hfold]
    rfl

/-- C8 witness: two quiet frames (RMS `1/100` and `0`, threshold `1/50`)
over 16000 samples at 16 kHz yield the single full-duration segment. -/
theorem C8_detect_voiced_segments_witness :
    detect_voiced_segments [1/100, 0] 16000 16000 (1/50 : ℚ) ≠ [] ∧
    detect_voiced_segments [1/100, 0] 16000 16000 (1/50 : ℚ)
      = [(0, (16000 : ℚ) / (16000 : ℚ))] :=
  ⟨(C8_detect_voiced_segments [1/100, 0] 16000 16000 (1/50)).1,
   (C8_detect_voiced_segments [1/100, 0] 16000 16000 (1/50)).2 (by
     intro r hr
     fin_cases hr <;> norm_num)⟩

/-- C7 counterexample: the claim asserts that empty input makes `preprocess`
fail with `InvalidAudioError`; on an empty decoded sample list the code instead
returns a `PreprocessedAudio` (empty signal, duration 0, one full-duration
segment), and no code path produces an error. -/
theorem C7_preprocess_counterexample :
    preprocess_audio [] [] AudioType.spoken 16000
      = Except.ok ⟨[], 16000, 0, [(0, 0)], AudioType.spoken⟩ ∧
    preprocess_audio [] [] AudioType.spoken 16000
      ≠ Except.error InvalidAudioError.invalid := by
  have h : preprocess_audio [] [] AudioType.spoken 16000
      = Except.ok ⟨[], 16000, 0, [(0, 0)], AudioType.spoken⟩ := by
    simp only [preprocess_audio, normalize_loudness, reduce_noise,
      detect_voiced_segments, List.map_nil, List.sum_nil, List.length_nil,
      List.enum_nil, List.foldl_nil]
    norm_num
  exact ⟨h, by rw [h]; intro hc; cases hc⟩

/-- C7 (amended): `preprocess_audio` never fails — the source defines no
`InvalidAudioError` and has no raise path — so for every input, including
empty audio, it returns a `PreprocessedAudio` value. -/
theorem C7_preprocess_amended (loaded rmsFrames : List ℝ) (t : AudioType)
    (sr : ℕ) :
    ∃ p : PreprocessedAudio, preprocess_audio loaded rmsFrames t sr = Except.ok p :=
  ⟨_, rfl⟩

/-- C9: aggregating an empty embedding list fails with
`ValueError("No embeddings provided")`; no centroid is returned. -/
theorem C9_aggregate_empty (n : ℕ) (m : AggMethod) :
    aggregate_embeddings ([] : List (Fin n → ℝ)) m
      = Except.error "No embeddings provided" := rfl

-- `sortReal` is a sorted permutation, hence permutation-invariant

theorem sortReal_sorted (l : List ℝ) : (sortReal l).Sorted (· ≤ ·) :=
  List.sorted_mergeSort' l

theorem sortReal_perm (l : List ℝ) : List.Perm (sortReal l) l :=
  List.mergeSort_perm l _

theorem sortReal_congr {l l' : List ℝ} (h : List.Perm l l') : sortReal l = sortReal l' :=
  List.eq_of_perm_of_sorted
    ((sortReal_perm l).trans (h.trans (sortReal_perm l').symm))
    (sortReal_sorted l) (sortReal_sorted l')

theorem npMedian_congr {l l' : List ℝ} (h : List.Perm l l') : npMedian l = npMedian l' := by
  simp only [npMedian, sortReal_congr h, h.length_eq]

theorem sortReal_replicate (N : ℕ) (v : ℝ) :
    sortReal (List.replicate N v) = List.replicate N v :=
  List.eq_of_perm_of_sorted (sortReal_perm _) (sortReal_sorted _)
    (List.pairwise_replicate.mpr (Or.inr le_rfl))

theorem npMedian_replicate (N : ℕ) (hN : 1 ≤ N) (v : ℝ) :
    npMedian (List.replicate N v) = v := by
  have hget : ∀ k, k < N → (List.replicate N v).getD k 0 = v := by
    intro k hk
    simp [List.getD_eq_getElem?_getD, List.getElem?_replicate, hk]
  simp only [npMedian, sortReal_replicate, List.length_replicate]
  by_cases hpar : N % 2 = 1
  · rw [if_pos hpar, hget _ (Nat.div_lt_self (by omega) (by omega))]
  · rw [if_neg hpar, hget _ (by omega), hget _ (Nat.div_lt_self (by omega) (by omega))]
    ring

-- the centroid is permutation-invariant in the embedding list

theorem centroidOf_congr {n : ℕ} {l l' : List (Fin n → ℝ)} (m : AggMethod)
    (h : List.Perm l l') : centroidOf l m = centroidOf l' m := by
  funext i
  cases m <;> simp only [centroidOf]
  · rw [(h.map (fun e => e i)).sum_eq, h.length_eq]
  · exact npMedian_congr (h.map (fun e => e i))
  · rw [(h.map (fun e => e i)).sum_eq, h.length_eq]

theorem centroidOf_replicate {n : ℕ} (N : ℕ) (hN : 1 ≤ N) (e : Fin n → ℝ)
    (m : AggMethod) (hm : m = AggMethod.mean ∨ m = AggMethod.median) :
    centroidOf (List.replicate N e) m = e := by
  funext i
  rcases hm with rfl | rfl
  · simp only [centroidOf, List.map_replicate, List.sum_replicate,
      List.length_replicate, nsmul_eq_mul]
    exact mul_div_cancel_left₀ _ (Nat.cast_ne_zero.mpr (by omega))
  · simp only [centroidOf, List.map_replicate]
    exact npMedian_replicate N hN (e i)

/-- C6 counterexample: the claim asserts that aggregating `N ≥ 1` copies of an
embedding yields (after normalization) that embedding; for the unit embedding
`![1, 0]` the mean aggregate is `![1/(1+1e-8), 0]`, which differs from it
because the code divides by `norm + 1e-8`. -/
theorem C6_aggregation_counterexample :
    aggregate_embeddings [![(1 : ℝ), 0]] AggMethod.mean ≠ Except.ok ![(1 : ℝ), 0] := by
  intro h
  have h1 : aggregate_embeddings [![(1 : ℝ), 0]] AggMethod.mean
      = Except.ok (fun i => (![(1 : ℝ), 0]) i / (1 + 1e-8)) := by
    have hc : centroidOf [![(1 : ℝ), 0]] AggMethod.mean = ![(1 : ℝ), 0] := by
      funext i
      simp [centroidOf]
    simp only [aggregate_embeddings, hc]
    norm_num [Fin.sum_univ_two, Real.sqrt_one]
  rw [h1] at h
  have h2 := congrFun (Except.ok.inj h) 0
  simp only [Matrix.cons_val_zero] at h2
  rw [div_eq_one_iff_eq (by norm_num)] at h2
  norm_num at h2

/-- C6 (amended): aggregation is deterministic and order-independent for every
method (mean, median, and the fallback), and aggregating `N ≥ 1` copies of one
embedding `e` with mean or median yields the centroid `e / (‖e‖ + 1e-8)` — a
positive rescaling of `e`, equal to `e` only up to the `1e-8` guard term the
code adds to the norm before dividing. -/
theorem C6_aggregation_amended :
    (∀ (n : ℕ) (l l' : List (Fin n → ℝ)) (m : AggMethod), List.Perm l l' →
      aggregate_embeddings l m = aggregate_embeddings l' m) ∧
    (∀ (n N : ℕ) (e : Fin n → ℝ) (m : AggMethod), 1 ≤ N →
      m = AggMethod.mean ∨ m = AggMethod.median →
      aggregate_embeddings (List.replicate N e) m
        = Except.ok (fun i => e i / (Real.sqrt (∑ j, e j ^ 2) + 1e-8))) := by
  constructor
  · intro n l l' m h
    cases l with
    | nil =>
      have h0 : l' = [] := h.symm.eq_nil
      subst h0
      rfl
    | cons a t =>
      cases l' with
      | nil => exact absurd h.eq_nil (List.cons_ne_nil a t)
      | cons b s =>
        simp only [aggregate_embeddings, centroidOf_congr m h]
  · intro n N e m hN hm
    obtain ⟨k, rfl⟩ : ∃ k, N = k + 1 := ⟨N - 1, by omega⟩
    have hc := centroidOf_replicate (k + 1) hN e m hm
    rw [List.replicate_succ] at hc ⊢
    simp only [aggregate_embeddings, hc]

/-- C6 witness: the amended statement applied to a two-element swap (median
method) and to two copies of `![3, 4]` (mean method). -/
theorem C6_aggregation_amended_witness :
    aggregate_embeddings [![(1 : ℝ), 0], ![(0 : ℝ), 1]] AggMethod.median
      = aggregate_embeddings [![(0 : ℝ), 1], ![(1 : ℝ), 0]] AggMethod.median ∧
    aggregate_embeddings (List.replicate 2 ![(3 : ℝ), 4]) AggMethod.mean
      = Except.ok (fun i => (![(3 : ℝ), 4]) i
          / (Real.sqrt (∑ j, (![(3 : ℝ), 4]) j ^ 2) + 1e-8)) :=
  ⟨C6_aggregation_amended.1 2 _ _ AggMethod.median (List.Perm.swap _ _ _),
   C6_aggregation_amended.2 2 2 ![(3 : ℝ), 4] AggMethod.mean (by norm_num) (Or.inl rfl)⟩

-- Cauchy-Schwarz for the model's dot product and norms

theorem abs_dot_le_norm_mul_norm {n : ℕ} (e1 e2 : Fin n → ℝ) :
    |∑ i, e1 i * e2 i|
      ≤ Real.sqrt (∑ i, e1 i ^ 2) * Real.sqrt (∑ i, e2 i ^ 2) := by
  rw [abs_le]
  constructor
  · have h := Real.sum_mul_le_sqrt_mul_sqrt Finset.univ (fun i => -e1 i) e2
    simp only [neg_mul, Finset.sum_neg_distrib, neg_sq] at h
    linarith
  · exact Real.sum_mul_le_sqrt_mul_sqrt Finset.univ e1 e2

/-- C2 counterexample: the claim asserts that a zero-norm embedding yields
similarity `0`; the code sets the raw cosine to `0` and still rescales it via
`(sim + 1) * 50`, returning `50`. -/
theorem C2_similarity_counterexample :
    compute_similarity ![(0 : ℝ), 0] ![(1 : ℝ), 0] Metric.cosine = 50 ∧
    compute_similarity ![(0 : ℝ), 0] ![(1 : ℝ), 0] Metric.cosine ≠ 0 := by
  have h : compute_similarity ![(0 : ℝ), 0] ![(1 : ℝ), 0] Metric.cosine = 50 := by
    simp only [compute_similarity]
    norm_num [Fin.sum_univ_two]
  exact ⟨h, by rw [h]; norm_num⟩

/-- C2 (amended): for embeddings with nonzero norms the cosine similarity is
`(cos + 1) · 50`, a value in `[0, 100]`; when at least one embedding has zero
norm the function returns `50` (the raw cosine is set to `0`, then rescaled),
not `0`. -/
theorem C2_similarity_amended {n : ℕ} (e1 e2 : Fin n → ℝ) :
    (0 < ∑ i, e1 i ^ 2 → 0 < ∑ i, e2 i ^ 2 →
      compute_similarity e1 e2 Metric.cosine
        = ((∑ i, e1 i * e2 i)
            / (Real.sqrt (∑ i, e1 i ^ 2) * Real.sqrt (∑ i, e2 i ^ 2)) + 1) * 50 ∧
      0 ≤ compute_similarity e1 e2 Metric.cosine ∧
      compute_similarity e1 e2 Metric.cosine ≤ 100) ∧
    ((∑ i, e1 i ^ 2) = 0 ∨ (∑ i, e2 i ^ 2) = 0 →
      compute_similarity e1 e2 Metric.cosine = 50) := by
  constructor
  · intro h1 h2
    have hn1 : 0 < Real.sqrt (∑ i, e1 i ^ 2) := Real.sqrt_pos.mpr h1
    have hn2 : 0 < Real.sqrt (∑ i, e2 i ^ 2) := Real.sqrt_pos.mpr h2
    have heq : compute_similarity e1 e2 Metric.cosine
        = ((∑ i, e1 i * e2 i)
            / (Real.sqrt (∑ i, e1 i ^ 2) * Real.sqrt (∑ i, e2 i ^ 2)) + 1) * 50 := by
      simp only [compute_similarity]
      rw [if_pos ⟨hn1, hn2⟩]
    have hcs := abs_dot_le_norm_mul_norm e1 e2
    rw [abs_le] at hcs
    have hprod : 0 < Real.sqrt (∑ i, e1 i ^ 2) * Real.sqrt (∑ i, e2 i ^ 2) :=
      mul_pos hn1 hn2
    have hub : (∑ i, e1 i * e2 i)
        / (Real.sqrt (∑ i, e1 i ^ 2) * Real.sqrt (∑ i, e2 i ^ 2)) ≤ 1 :=
      (div_le_one hprod).mpr hcs.2
    have hlb : -1 ≤ (∑ i, e1 i * e2 i)
        / (Real.sqrt (∑ i, e1 i ^ 2) * Real.sqrt (∑ i, e2 i ^ 2)) := by
      rw [le_div_iff₀ hprod]
      linarith [hcs.1]
    exact ⟨heq, by rw [heq]; linarith, by rw [heq]; linarith⟩
  · intro h
    have hnot : ¬(Real.sqrt (∑ i, e1 i ^ 2) > 0 ∧ Real.sqrt (∑ i, e2 i ^ 2) > 0) := by
      rcases h with h | h
      · rw [h, Real.sqrt_zero]
        rintro ⟨h1, -⟩
        exact lt_irrefl 0 h1
      · rw [h, Real.sqrt_zero]
        rintro ⟨-, h2⟩
        exact lt_irrefl 0 h2
    simp only [compute_similarity]
    rw [if_neg hnot]
    norm_num

/-- C2 witness: the amended statement applied to `![1,0]` against itself
(similarity `100`, within bounds) and to `![1,0]` against the zero embedding
(similarity `50`). -/
theorem C2_similarity_amended_witness :
    (compute_similarity ![(1 : ℝ), 0] ![(1 : ℝ), 0] Metric.cosine
        = ((∑ i, (![(1 : ℝ), 0]) i * (![(1 : ℝ), 0]) i)
            / (Real.sqrt (∑ i, (![(1 : ℝ), 0]) i ^ 2)
              * Real.sqrt (∑ i, (![(1 : ℝ), 0]) i ^ 2)) + 1) * 50 ∧
      0 ≤ compute_similarity ![(1 : ℝ), 0] ![(1 : ℝ), 0] Metric.cosine ∧
      compute_similarity ![(1 : ℝ), 0] ![(1 : ℝ), 0] Metric.cosine ≤ 100) ∧
    compute_similarity ![(1 : ℝ), 0] ![(0 : ℝ), 0] Metric.cosine = 50 :=
  ⟨(C2_similarity_amended ![(1 : ℝ), 0] ![(1 : ℝ), 0]).1
      (by norm_num [Fin.sum_univ_two]) (by norm_num [Fin.sum_univ_two]),
   (C2_similarity_amended ![(1 : ℝ), 0] ![(0 : ℝ), 0]).2
      (Or.inr (by norm_num [Fin.sum_univ_two]))⟩

-- one step of the verification loop either keeps the state (and then the
-- candidate's similarity, if any, does not beat it) or switches to the
-- candidate at its similarity

theorem verifyStep_cases {n : ℕ} (test : Fin n → ℝ)
    (st : ℝ × Option (VoiceSignature n)) (a : VoiceSignature n) :
    (verifyStep test st a = st ∧
      (∀ emb, a.embedding = some emb →
        compute_similarity test emb Metric.cosine ≤ st.1)) ∨
    (∃ emb, a.embedding = some emb ∧
      verifyStep test st a = (compute_similarity test emb Metric.cosine, some a) ∧
      st.1 ≤ compute_similarity test emb Metric.cosine) := by
  unfold verifyStep
  cases ha : a.embedding with
  | none =>
    left
    refine ⟨rfl, ?_⟩
    intro emb h
    exact Option.noConfusion h
  | some emb =>
    by_cases hlt : st.1 < compute_similarity test emb Metric.cosine
    · right
      exact ⟨emb, rfl, by simp [hlt], le_of_lt hlt⟩
    · left
      refine ⟨by simp [hlt], ?_⟩
      intro emb2 h2
      obtain rfl : emb = emb2 := Option.some.inj h2
      exact not_lt.mp hlt

-- invariants of the full candidate fold, generalized over the initial state

theorem verify_foldl_spec {n : ℕ} (test : Fin n → ℝ)
    (sigs : List (VoiceSignature n)) :
    ∀ st : ℝ × Option (VoiceSignature n),
      st.1 ≤ (sigs.foldl (verifyStep test) st).1 ∧
      (∀ s ∈ sigs, ∀ emb, s.embedding = some emb →
        compute_similarity test emb Metric.cosine
          ≤ (sigs.foldl (verifyStep test) st).1) ∧
      (sigs.foldl (verifyStep test) st = st ∨
        ∃ s ∈ sigs, ∃ emb, s.embedding = some emb ∧
          (sigs.foldl (verifyStep test) st).2 = some s ∧
          (sigs.foldl (verifyStep test) st).1
            = compute_similarity test emb Metric.cosine) := by
  induction sigs with
  | nil =>
    intro st
    refine ⟨le_rfl, ?_, Or.inl rfl⟩
    intro s hs
    cases hs
  | cons a t ih =>
    intro st
    rw [List.foldl_cons]
    obtain ⟨ih1, ih2, ih3⟩ := ih (verifyStep test st a)
    rcases verifyStep_cases test st a with ⟨hstep, hbound⟩ | ⟨emb, ha, hstep, hle⟩
    · rw [hstep] at ih1 ih2 ih3 ⊢
      refine ⟨ih1, ?_, ?_⟩
      · intro s hs emb hemb
        rcases List.mem_cons.mp hs with rfl | hmem
        · exact le_trans (hbound emb hemb) ih1
        · exact ih2 s hmem emb hemb
      · rcases ih3 with heq | ⟨s, hs, emb, hemb, h2, h1⟩
        · exact Or.inl heq
        · exact Or.inr ⟨s, List.mem_cons_of_mem a hs, emb, hemb, h2, h1⟩
    · rw [hstep] at ih1 ih2 ih3 ⊢
      refine ⟨le_trans hle ih1, ?_, ?_⟩
      · intro s hs emb2 hemb2
        rcases List.mem_cons.mp hs with rfl | hmem
        · rw [ha] at hemb2
          cases hemb2
          exact ih1
        · exact ih2 s hmem emb2 hemb2
      · rcases ih3 with heq | ⟨s, hs, emb2, hemb2, h2, h1⟩
        · rw [heq]
          exact Or.inr ⟨a, List.mem_cons_self a t, emb, ha, rfl, rfl⟩
        · exact Or.inr ⟨s, List.mem_cons_of_mem a hs, emb2, hemb2, h2, h1⟩

/-- C1 counterexample: the claim asserts that when `best_similarity <
threshold` the matched-signature reference is absent; with probe `![1,0]` and
a single candidate `![0,1]` the similarity is `50 < 70`, `match` is `false`,
yet `matched_signature` still references that candidate. -/
theorem C1_verify_counterexample :
    (verify_identity ![(1 : ℝ), 0] [⟨0, some ![(0 : ℝ), 1]⟩]).confidence = 50 ∧
    (verify_identity ![(1 : ℝ), 0] [⟨0, some ![(0 : ℝ), 1]⟩]).confidence < 70 ∧
    (verify_identity ![(1 : ℝ), 0] [⟨0, some ![(0 : ℝ), 1]⟩]).is_match = false ∧
    (verify_identity ![(1 : ℝ), 0] [⟨0, some ![(0 : ℝ), 1]⟩]).matched_signature
      = some ⟨0, some ![(0 : ℝ), 1]⟩ := by
  have hsim : compute_similarity ![(1 : ℝ), 0] ![(0 : ℝ), 1] Metric.cosine = 50 := by
    simp only [compute_similarity]
    norm_num [Fin.sum_univ_two]
  have hv : verify_identity ![(1 : ℝ), 0] [⟨0, some ![(0 : ℝ), 1]⟩]
      = ⟨false, 50, some ⟨0, some ![(0 : ℝ), 1]⟩⟩ := by
    simp only [verify_identity, List.foldl_cons, List.foldl_nil, verifyStep, hsim]
    norm_num
  rw [hv]
  refine ⟨rfl, by norm_num, rfl, rfl⟩

/-- C1 (amended): with the threshold fixed at 70 as in the code, the decision
retains a candidate of maximal similarity (strict improvement over the initial
best of 0), `match` holds exactly when the best similarity reaches 70 and a
candidate was retained, and `best < 70` forces `match = false`; however the
matched-signature reference is then still present whenever some candidate had
positive similarity, and it is absent exactly when the best similarity stayed
at 0. -/
theorem C1_verify_amended {n : ℕ} (test : Fin n → ℝ)
    (sigs : List (VoiceSignature n)) :
    ((verify_identity test sigs).is_match = true ↔
      (70 ≤ (verify_identity test sigs).confidence ∧
        (verify_identity test sigs).matched_signature.isSome = true)) ∧
    (∀ s ∈ sigs, ∀ emb, s.embedding = some emb →
      compute_similarity test emb Metric.cosine
        ≤ (verify_identity test sigs).confidence) ∧
    (∀ s, (verify_identity test sigs).matched_signature = some s →
      s ∈ sigs ∧ ∃ emb, s.embedding = some emb ∧
        (verify_identity test sigs).confidence
          = compute_similarity test emb Metric.cosine) ∧
    ((verify_identity test sigs).confidence < 70 →
      (verify_identity test sigs).is_match = false) ∧
    ((verify_identity test sigs).matched_signature = none →
      (verify_identity test sigs).confidence = 0) := by
  obtain ⟨h0, hmax, hdisj⟩ := verify_foldl_spec test sigs (0, none)
  refine ⟨?_, ?_, ?_, ?_, ?_⟩
  · show (if (70 : ℝ) ≤ (sigs.foldl (verifyStep test) (0, none)).1
        then (sigs.foldl (verifyStep test) (0, none)).2.isSome else false) = true ↔ _
    by_cases h70 : (70 : ℝ) ≤ (sigs.foldl (verifyStep test) (0, none)).1
    · rw [if_pos h70]
      simp [verify_identity, h70]
    · rw [if_neg h70]
      simp [verify_identity, h70]
  · exact hmax
  · intro s hs
    rcases hdisj with heq | ⟨s', hs', emb, hemb, h2, h1⟩
    · have : (none : Option (VoiceSignature n)) = some s := by
        have hs2 : (verify_identity test sigs).matched_signature
            = (sigs.foldl (verifyStep test) (0, none)).2 := rfl
        rw [hs2, heq] at hs
        exact hs
      cases this
    · have hs2 : (verify_identity test sigs).matched_signature
          = (sigs.foldl (verifyStep test) (0, none)).2 := rfl
      rw [hs2, h2] at hs
      cases hs
      exact ⟨hs', emb, hemb, h1⟩
  · intro hlt
    have hlt2 : (sigs.foldl (verifyStep test) (0, none)).1 < 70 := hlt
    show (if (70 : ℝ) ≤ (sigs.foldl (verifyStep test) (0, none)).1
        then (sigs.foldl (verifyStep test) (0, none)).2.isSome else false) = false
    rw [if_neg (not_le.mpr hlt2)]
  · intro hnone
    rcases hdisj with heq | ⟨s', hs', emb, hemb, h2, h1⟩
    · show (sigs.foldl (verifyStep test) (0, none)).1 = 0
      rw [heq]
    · have hs2 : (verify_identity test sigs).matched_signature
          = (sigs.foldl (verifyStep test) (0, none)).2 := rfl
      rw [hs2, h2] at hnone
      cases hnone

/-- C1 witness: the amended statement applied to probe `![1,0]` with the
single candidate `⟨1, ![1,0]⟩`: its similarity is bounded by the returned
confidence. -/
theorem C1_verify_amended_witness :
    compute_similarity ![(1 : ℝ), 0] ![(1 : ℝ), 0] Metric.cosine
      ≤ (verify_identity ![(1 : ℝ), 0] [⟨1, some ![(1 : ℝ), 0]⟩]).confidence :=
  (C1_verify_amended ![(1 : ℝ), 0] [⟨1, some ![(1 : ℝ), 0]⟩]).2.1
    ⟨1, some ![(1 : ℝ), 0]⟩ (List.mem_singleton.mpr rfl) ![(1 : ℝ), 0] rfl
